import Mathlib

/-!
Verification development for the xmux core (package `xmux`).

The Go source is embedded shallowly:

* Go's polymorphic resolver `Bind = func(ptr any) error` writes through a
  pointer and returns an error.  Specialised to a slot of type `α` it is
  modelled as `α → Except E α`: it receives the current (zero) value of the
  slot and returns either the filled value or an error.  A `nil` Go error is
  `Option.none`, a non-nil one `Option.some e`.
* The external `Router` interface (`Register(method, path, api, options...)`)
  is modelled as a record `RouterV` bundling an opaque state type `σ` with a
  state-transforming register function; a Go registration's side effect
  becomes an explicit state update.
* Option maps (`map[string]string`) stay abstract (`ω`) wherever the code
  only passes them through; `mergeOptions` works on `Opt := String → Option
  String`, the functional view of a Go string map.
* Go generics' zero value `var x T` is `(default : T)` via `Inhabited`.
-/

namespace Xmux

/-- The external `Router` capability: a register function over a state `σ`,
together with the router's current state.  `H` is the handler type, `ω` the
type of one option map. -/
structure RouterV (σ H ω : Type) where
  reg : σ → String → String → H → List ω → σ
  st : σ

/-- One registration event as received by a router: method, path, handler and
the option maps, exactly as passed. -/
structure Registration (H ω : Type) where
  method : String
  path : String
  api : H
  options : List ω
deriving DecidableEq

/-- The transparent log router: its state is the list of registrations it has
received, and `reg` appends one `Registration` per call. -/
def logRouter (H ω : Type) (s0 : List (Registration H ω)) :
    RouterV (List (Registration H ω)) H ω :=
  ⟨fun s m p a o => s ++ [⟨m, p, a, o⟩], s0⟩

/-- `HandlerFunc[Params, Response]`: a function from a context and a resolver
for `P` to a response paired with an optional error (`func(ctx context.Context,
bind Bind) (Response, error)`).  `P` is carried as a phantom parameter, used by
the `Params` method. -/
structure HandlerFunc (P R Ctx E : Type) where
  run : Ctx → (P → Except E P) → R × Option E

/-- `HandlerFunc.Invoke` calls the underlying function. -/
def HandlerFunc.Invoke (h : HandlerFunc P R Ctx E) (ctx : Ctx)
    (bind : P → Except E P) : R × Option E :=
  h.run ctx bind

/-- `HandlerFunc.Params`: `var zero Params; return zero`. -/
def HandlerFunc.Params [Inhabited P] (_ : HandlerFunc P R Ctx E) : P :=
  (default : P)

/-- `HandlerFunc.Response`: `var zero Response; return zero`. -/
def HandlerFunc.Response [Inhabited R] (_ : HandlerFunc P R Ctx E) : R :=
  (default : R)

/-- The handler literal built inside `Register`:
`var params Params; if err = bind(&params); err != nil { return };
return fn(ctx, &params)` — with the named return `resp` starting at the zero
value of `Response`. -/
def registerHandler [Inhabited P] [Inhabited R]
    (fn : Ctx → P → R × Option E) : HandlerFunc P R Ctx E :=
  ⟨fun ctx bind =>
    match bind (default : P) with
    | .error e => ((default : R), some e)
    | .ok params => fn ctx params⟩

/-- The generic registration helper `Register`: builds the handler adapter and
hands it to the router's register function together with method, path and
options. -/
def Register [Inhabited P] [Inhabited R]
    (router : RouterV σ (HandlerFunc P R Ctx E) ω) (method path : String)
    (fn : Ctx → P → R × Option E) (options : List ω) : σ :=
  router.reg router.st method path (registerHandler fn) options

/-- The options decorator `optionsRouter`: holds the wrapped router and the
group-level option maps. -/
structure OptionsRouter (σ H ω : Type) where
  router : RouterV σ H ω
  options : List ω

/-- `optionsRouter.Register` forwards to the inner router with
`append(o.options, options...)`: group options first, route options after. -/
def OptionsRouter.Register (o : OptionsRouter σ H ω) (s : σ)
    (method path : String) (api : H) (options : List ω) : σ :=
  o.router.reg s method path api (o.options ++ options)

/-- An `optionsRouter` viewed through the `Router` interface: same state as
the inner router, and `reg` is its `Register` method. -/
def OptionsRouter.toRouter (o : OptionsRouter σ H ω) : RouterV σ H ω :=
  ⟨fun s m p a opts => o.Register s m p a opts, o.router.st⟩

/-- One Go option map `map[string]string`, viewed functionally: the value a
key maps to, or `none` when absent. -/
def Opt : Type := String → Option String

/-- The inner loop of `mergeOptions`: `for k, v := range opts { result[k] = v }`
— every key present in `opts` overwrites `result`. -/
def mergeStep (result opts : Opt) : Opt := fun k =>
  match opts k with
  | some v => some v
  | none => result k

/-- `mergeOptions`: starts from the empty map and writes every entry of every
map in order, so a later map wins on key collision. -/
def mergeOptions (options : List Opt) : Opt :=
  options.foldl mergeStep (fun _ => none)

/-- `RouterGroup[Handler]`: holds the registration closure over a router and
one dependency value of type `D`. -/
structure RouterGroup (σ A ω D : Type) (E : Type) where
  register : RouterV σ A ω → D → σ

/-- `RouterGroup.Bind`: `var handler Handler; if err = bind(&handler);
err != nil { return }; g.register(router, handler); return`.  On resolver
failure the router state is untouched. -/
def RouterGroup.Bind [Inhabited D] (g : RouterGroup σ A ω D E)
    (router : RouterV σ A ω) (bind : D → Except E D) : σ × Option E :=
  match bind (default : D) with
  | .error e => (router.st, some e)
  | .ok handler => (g.register router handler, none)

/-- `DefineGroup`: captures the options, and the returned group's `register`
wraps the router in an `optionsRouter` before calling `registerFn`. -/
def DefineGroup (registerFn : RouterV σ A ω → D → σ) (options : List ω) :
    RouterGroup σ A ω D E :=
  ⟨fun router handler =>
    registerFn (OptionsRouter.toRouter ⟨router, options⟩) handler⟩

/-- The `Binder` capability `Bind(router Router, bind Bind) error`, after the
router is specialised to a state `σ` and the polymorphic resolver to an
opaque value of type `ρ`: given the router's state and the resolver it yields
the updated router state and the returned error. -/
def Binder (σ ρ E : Type) : Type := σ → ρ → σ × Option E

/-- `Groups`: the registry's state, the ordered list of registered binders
(the mutex is not part of the sequential model). -/
structure Groups (σ ρ E : Type) where
  groups : List (Binder σ ρ E)

/-- `NewGroups` creates an empty registry. -/
def NewGroups : Groups σ ρ E := ⟨[]⟩

/-- `Groups.Register` appends the given binders, in the order given, and
returns the registry for chaining. -/
def Groups.Register (g : Groups σ ρ E) (new : List (Binder σ ρ E)) :
    Groups σ ρ E :=
  ⟨g.groups ++ new⟩

/-- The loop body of `Groups.Bind`: call each group's `Bind` with the (same)
router and resolver, stopping at the first non-nil error. -/
def bindList : List (Binder σ ρ E) → σ → ρ → σ × Option E
  | [], router, _ => (router, none)
  | g :: rest, router, bind =>
    match g router bind with
    | (router', some e) => (router', some e)
    | (router', none) => bindList rest router' bind

/-- `Groups.Bind`: iterates the registered groups under the lock.  The method
never reassigns `g.groups`, which the explicit-state embedding records by
returning the registry unchanged alongside the router state and error. -/
def Groups.Bind (g : Groups σ ρ E) (router : σ) (bind : ρ) :
    Groups σ ρ E × σ × Option E :=
  (g, bindList g.groups router bind)

/-! Theorems. -/

/-- Claim C1: the handler built by `Register` consults the resolver exactly
once, on the zero value of the parameter type; if the resolver errors, `Invoke`
returns that error (with the zero response) and the business function is never
called (the result does not depend on it); if the resolver succeeds, `Invoke`
returns the business function's result on the resolved parameter unchanged. -/
theorem register_handler_invoke_behaviour
    {P R Ctx E : Type} [Inhabited P] [Inhabited R]
    (fn : Ctx → P → R × Option E) (ctx : Ctx) (bind : P → Except E P) :
    (∀ bind₂ : P → Except E P, bind (default : P) = bind₂ (default : P) →
      (registerHandler fn).Invoke ctx bind
        = (registerHandler fn).Invoke ctx bind₂) ∧
    (∀ e : E, bind (default : P) = .error e →
      (registerHandler fn).Invoke ctx bind = ((default : R), some e) ∧
      ∀ fn₂ : Ctx → P → R × Option E,
        (registerHandler fn₂).Invoke ctx bind = ((default : R), some e)) ∧
    (∀ p : P, bind (default : P) = .ok p →
      (registerHandler fn).Invoke ctx bind = fn ctx p) := by
  refine ⟨?_, ?_, ?_⟩
  · intro bind₂ h
    simp only [HandlerFunc.Invoke, registerHandler, h]
  · intro e he
    refine ⟨?_, ?_⟩
    · simp only [HandlerFunc.Invoke, registerHandler, he]
    · intro fn₂
      simp only [HandlerFunc.Invoke, registerHandler, he]
  · intro p hp
    simp only [HandlerFunc.Invoke, registerHandler, hp]

/-- Witness for C1 at concrete inputs: a succeeding resolver reaches the
business function with the resolved value; a failing resolver surfaces its
error with the zero response; and two resolvers agreeing on the zero value
give the same invocation result. -/
theorem register_handler_invoke_behaviour_witness :
    ((registerHandler (fun (_ : Unit) (p : Nat) => (p + 1, (none : Option String)))).Invoke
        () (fun p => .ok (p + 5)) = (6, none)) ∧
    ((registerHandler (fun (_ : Unit) (p : Nat) => (p + 1, (none : Option String)))).Invoke
        () (fun _ => .error "boom") = (0, some "boom")) ∧
    ((registerHandler (fun (_ : Unit) (p : Nat) => (p + 1, (none : Option String)))).Invoke
        () (fun p => .ok (p + 5))
      = (registerHandler (fun (_ : Unit) (p : Nat) => (p + 1, (none : Option String)))).Invoke
        () (fun _ => .ok 5)) := by
  refine ⟨?_, ?_, ?_⟩
  · exact (register_handler_invoke_behaviour _ () _).2.2 5 rfl
  · exact ((register_handler_invoke_behaviour _ () _).2.1 "boom" rfl).1
  · exact (register_handler_invoke_behaviour _ () _).1 (fun _ => .ok 5) rfl

/-- Claim C6: the `Register` helper makes exactly one call to the router's
register function, passing method, path, the constructed adapter, and the
options in that order, unmodified; instantiated at the log router, exactly one
registration record is appended, holding those exact values. -/
theorem register_helper_passes_through
    {σ P R Ctx E ω : Type} [Inhabited P] [Inhabited R]
    (router : RouterV σ (HandlerFunc P R Ctx E) ω) (method path : String)
    (fn : Ctx → P → R × Option E) (options : List ω) :
    (Register router method path fn options
      = router.reg router.st method path (registerHandler fn) options) ∧
    (∀ s0 : List (Registration (HandlerFunc P R Ctx E) ω),
      Register (logRouter (HandlerFunc P R Ctx E) ω s0) method path fn options
        = s0 ++ [⟨method, path, registerHandler fn, options⟩]) := by
  exact ⟨rfl, fun s0 => rfl⟩

/-- Claim C7: `Params` and `Response` of any `HandlerFunc` return the zero
value of the declared parameter and response type; as total pure Lean
functions they do so on every call, cannot fail, and have no side effects. -/
theorem params_response_always_zero
    {P R Ctx E : Type} [Inhabited P] [Inhabited R]
    (h : HandlerFunc P R Ctx E) :
    h.Params = (default : P) ∧ h.Response = (default : R) :=
  ⟨rfl, rfl⟩

/-- Claim C10: when the resolver fails, the value `Invoke` returns alongside
the error is the zero value of the declared response type. -/
theorem register_handler_error_zero_response
    {P R Ctx E : Type} [Inhabited P] [Inhabited R]
    (fn : Ctx → P → R × Option E) (ctx : Ctx) (bind : P → Except E P)
    (e : E) (he : bind (default : P) = .error e) :
    (registerHandler fn).Invoke ctx bind = ((default : R), some e) := by
  simp only [HandlerFunc.Invoke, registerHandler, he]

/-- Witness for C10: a business function that never returns the zero response
still yields the zero response when the resolver fails. -/
theorem register_handler_error_zero_response_witness :
    (registerHandler (fun (_ : Unit) (p : Nat) => (p + 42, (none : Option String)))).Invoke
        () (fun _ => .error "parse failure") = (0, some "parse failure") :=
  register_handler_error_zero_response _ () _ "parse failure" rfl

/-- The spec's example group-level options `\x7b"x":"0","y":"2"\x7d`. -/
def exampleGroupOpts : Opt := fun k =>
  if k = "x" then some "0" else if k = "y" then some "2" else none

/-- The spec's example route-level options `\x7b"x":"1"\x7d`. -/
def exampleRouteOpts : Opt := fun k =>
  if k = "x" then some "1" else none

/-- Folding `mergeStep` from any initial map agrees with folding it from the
empty map wherever the folded maps define the key, and falls back to the
initial map elsewhere. -/
lemma foldl_mergeStep (l : List Opt) (init : Opt) (k : String) :
    (l.foldl mergeStep init) k
      = match (l.foldl mergeStep (fun _ => none)) k with
        | some v => some v
        | none => init k := by
  induction l generalizing init with
  | nil => simp
  | cons o l ih =>
    simp only [List.foldl_cons]
    rw [ih (mergeStep init o), ih (mergeStep (fun _ => none) o)]
    cases h : (l.foldl mergeStep (fun _ => none)) k with
    | some v => simp
    | none =>
      simp only [mergeStep]
      cases ho : o k <;> simp

/-- Merging a concatenation of option-map lists: a key defined by the later
list takes its value from there, otherwise from the earlier list. -/
lemma mergeOptions_append (g r : List Opt) (k : String) :
    mergeOptions (g ++ r) k
      = match mergeOptions r k with
        | some v => some v
        | none => mergeOptions g k := by
  simp only [mergeOptions, List.foldl_append]
  exact foldl_mergeStep r (g.foldl mergeStep fun _ => none) k

/-- Claim C3: the options decorator forwards every registration to the inner
router with the same method, path and handler and with group options
concatenated before route options; under `mergeOptions` (later maps win) a key
defined at route level overrides the group level, and on the spec's example
the flattened options are `\x7b"x":"1","y":"2"\x7d`. -/
theorem options_decorator_concat {σ H ω : Type}
    (inner : RouterV σ H ω) (groupOptions : List ω) (s : σ)
    (method path : String) (api : H) (routeOptions : List ω) :
    (OptionsRouter.Register ⟨inner, groupOptions⟩ s method path api routeOptions
      = inner.reg s method path api (groupOptions ++ routeOptions)) ∧
    (∀ (g r : List Opt) (k : String),
      mergeOptions (g ++ r) k
        = match mergeOptions r k with
          | some v => some v
          | none => mergeOptions g k) ∧
    (mergeOptions ([exampleGroupOpts] ++ [exampleRouteOpts]) "x" = some "1" ∧
     mergeOptions ([exampleGroupOpts] ++ [exampleRouteOpts]) "y" = some "2" ∧
     ∀ k, k ≠ "x" → k ≠ "y" →
       mergeOptions ([exampleGroupOpts] ++ [exampleRouteOpts]) k = none) := by
  refine ⟨rfl, mergeOptions_append, ?_, ?_, ?_⟩
  · decide
  · decide
  · intro k hx hy
    simp [mergeOptions, mergeStep, exampleGroupOpts, exampleRouteOpts, hx, hy]

/-- Witness for C3: the decorator equation at a concrete inner router, and
the flattened example options at the absent key "z". -/
theorem options_decorator_concat_witness :
    (OptionsRouter.Register
        ⟨⟨fun s _ _ _ o => s + o.length, 0⟩, [exampleGroupOpts]⟩
        0 "GET" "/users" () [exampleRouteOpts]
      = (⟨fun s _ _ _ o => s + o.length, 0⟩ : RouterV Nat Unit Opt).reg
          0 "GET" "/users" () ([exampleGroupOpts] ++ [exampleRouteOpts])) ∧
    mergeOptions ([exampleGroupOpts] ++ [exampleRouteOpts]) "z" = none := by
  constructor
  · exact (options_decorator_concat
      (⟨fun s _ _ _ o => s + o.length, 0⟩ : RouterV Nat Unit Opt)
      [exampleGroupOpts] 0 "GET" "/users" () [exampleRouteOpts]).1
  · exact (options_decorator_concat
      (⟨fun s _ _ _ _ => s, 0⟩ : RouterV Nat Unit Opt)
      [] 0 "" "" () []).2.2.2.2 "z" (by decide) (by decide)

/-- Claim C5: a group built by `DefineGroup` resolves the zero value of its
dependency type; on resolver failure `Bind` returns the error with the router
state untouched and never runs the registration closure (the result does not
depend on it); on success it runs the closure on the options-decorated router
and the resolved dependency, returning no error. -/
theorem define_group_bind_behaviour {σ A ω D E : Type} [Inhabited D]
    (registerFn : RouterV σ A ω → D → σ) (options : List ω)
    (router : RouterV σ A ω) (bind : D → Except E D) :
    (∀ e : E, bind (default : D) = .error e →
      (DefineGroup registerFn options).Bind router bind = (router.st, some e) ∧
      ∀ registerFn₂ : RouterV σ A ω → D → σ,
        (DefineGroup (E := E) registerFn₂ options).Bind router bind
          = (router.st, some e)) ∧
    (∀ h : D, bind (default : D) = .ok h →
      (DefineGroup registerFn options).Bind router bind
        = (registerFn (OptionsRouter.toRouter ⟨router, options⟩) h, none)) := by
  constructor
  · intro e he
    constructor
    · simp only [RouterGroup.Bind, he]
    · intro registerFn₂
      simp only [RouterGroup.Bind, he]
  · intro h hh
    simp only [RouterGroup.Bind, DefineGroup, hh]

/-- Witness for C5 at a concrete group: a failing resolver leaves the router
state at its initial value and surfaces the error; a succeeding resolver runs
the registration closure through the decorated router. -/
theorem define_group_bind_behaviour_witness :
    ((DefineGroup (E := String)
        (fun r (_ : Nat) => r.reg r.st "GET" "/n" () [()]) [(), ()]).Bind
      ⟨fun s _ _ _ o => s + 10 * o.length, 1⟩ (fun _ => .error "no dep")
        = (1, some "no dep")) ∧
    ((DefineGroup (E := String)
        (fun r (_ : Nat) => r.reg r.st "GET" "/n" () [()]) [(), ()]).Bind
      ⟨fun s _ _ _ o => s + 10 * o.length, 1⟩ (fun d => .ok (d + 3))
        = (31, none)) := by
  constructor
  · exact ((define_group_bind_behaviour _ _ _ _).1 "no dep" rfl).1
  · exact (define_group_bind_behaviour _ _ _ _).2 3 rfl

/-- A binder that only logs a tag into the router state and succeeds. -/
def logB {τ ρ E : Type} (t : τ) : Binder (List τ) ρ E :=
  fun s _ => (s ++ [t], none)

/-- `bindList` over a concatenation: the second list runs from the state the
first one produced, and only when the first list produced no error. -/
lemma bindList_append {σ ρ E : Type} (pre rest : List (Binder σ ρ E))
    (r : σ) (b : ρ) :
    bindList (pre ++ rest) r b
      = match bindList pre r b with
        | (r', some e) => (r', some e)
        | (r', none) => bindList rest r' b := by
  induction pre generalizing r with
  | nil => simp [bindList]
  | cons g pre ih =>
    simp only [List.cons_append, bindList]
    rcases hg : g r b with ⟨r1, e1⟩
    cases e1 with
    | none => simp [ih]
    | some e => simp

/-- `bindList` over binders that never fail produces no error. -/
lemma bindList_all_none {σ ρ E : Type} {b : ρ} (gs : List (Binder σ ρ E))
    (hb : ∀ g ∈ gs, ∀ s, (g s b).2 = none) (r : σ) :
    (bindList gs r b).2 = none := by
  induction gs generalizing r with
  | nil => simp [bindList]
  | cons g gs ih =>
    have h1 := hb g (by simp) r
    rcases hg : g r b with ⟨r1, e1⟩
    rw [hg] at h1
    simp only at h1
    subst h1
    simp only [bindList, hg]
    exact ih (fun g' hg' s => hb g' (by simp [hg']) s) r1

/-- `bindList` over logging binders appends their tags in list order and
returns no error. -/
lemma bindList_map_logB {τ ρ E : Type} (ts s : List τ) (b : ρ) :
    bindList (ts.map (logB (ρ := ρ) (E := E))) s b = (s ++ ts, none) := by
  induction ts generalizing s with
  | nil => simp [bindList]
  | cons t ts ih =>
    simp only [List.map_cons, bindList, logB]
    rw [ih]
    simp

/-- Claim C2: `Groups.Bind` runs the registered groups in insertion order;
at the first failing group it returns that group's error with the router state
it left (earlier groups' registrations are kept, no rollback), the groups
after the failing one are never attempted (the result does not depend on
them); when every group succeeds it returns no error. -/
theorem groups_bind_fail_fast {σ ρ E : Type}
    (pre post : List (Binder σ ρ E)) (g : Binder σ ρ E)
    (router routerPre routerFail : σ) (bind : ρ) (e : E)
    (hpre : bindList pre router bind = (routerPre, none))
    (hg : g routerPre bind = (routerFail, some e)) :
    (Groups.Bind ⟨pre ++ g :: post⟩ router bind
      = (⟨pre ++ g :: post⟩, routerFail, some e)) ∧
    (∀ post₂ : List (Binder σ ρ E),
      Groups.Bind ⟨pre ++ g :: post₂⟩ router bind
        = (⟨pre ++ g :: post₂⟩, routerFail, some e)) ∧
    (∀ gs : List (Binder σ ρ E), (∀ b ∈ gs, ∀ s, (b s bind).2 = none) →
      (Groups.Bind ⟨gs⟩ router bind).2.2 = none) := by
  have key : ∀ post₂ : List (Binder σ ρ E),
      bindList (pre ++ g :: post₂) router bind = (routerFail, some e) := by
    intro post₂
    rw [bindList_append, hpre]
    simp [bindList, hg]
  refine ⟨?_, ?_, ?_⟩
  · simp [Groups.Bind, key post]
  · intro post₂
    simp [Groups.Bind, key post₂]
  · intro gs hgs
    simpa [Groups.Bind] using bindList_all_none gs hgs router

/-- Witness for C2: groups `[log 1, log 2]` succeed, the third fails with
"bad", the fourth is never run — the bound state keeps the first two
registrations, the error is "bad", and an all-successful registry binds with
no error. -/
theorem groups_bind_fail_fast_witness :
    (Groups.Bind
        (⟨[logB 1, logB 2, fun s _ => (s, some "bad"), logB 3]⟩ :
          Groups (List Nat) Unit String) [] ()
      = (⟨[logB 1, logB 2, fun s _ => (s, some "bad"), logB 3]⟩,
          [1, 2], some "bad")) ∧
    (Groups.Bind (⟨[logB 7]⟩ : Groups (List Nat) Unit String) [] ()).2.2
      = none := by
  constructor
  · exact (groups_bind_fail_fast [logB 1, logB 2] [logB 3]
      (fun s _ => (s, some "bad")) [] [1, 2] [1, 2] () "bad" rfl rfl).2.1 [logB 3]
  · exact (groups_bind_fail_fast [] [] (fun s _ => (s, some "oops"))
      [] [] [] () "oops" rfl rfl).2.2 [logB 7]
      (by intro g hg s; simp at hg; subst hg; simp [logB])

/-- Claim C4: the registry keeps insertion order — `Register` appends the
given binders behind the existing ones, registering `[A, B]` then `[C]` on an
empty registry yields the sequence `[A, B, C]`, and `Bind` then invokes A, B
and C in exactly that order (observed through logging binders). -/
theorem groups_register_insertion_order {τ ρ E : Type}
    (g0 : Groups (List τ) ρ E) (new : List (Binder (List τ) ρ E))
    (a b c : τ) (s : List τ) (resolver : ρ) :
    ((Groups.Register g0 new).groups = g0.groups ++ new) ∧
    (((NewGroups.Register [logB a, logB b]).Register [logB c]
        : Groups (List τ) ρ E).groups = [logB a, logB b, logB c]) ∧
    ((Groups.Bind ((NewGroups.Register [logB a, logB b]).Register [logB c]
        : Groups (List τ) ρ E) s resolver).2 = (s ++ [a, b, c], none)) := by
  refine ⟨rfl, by simp [Groups.Register, NewGroups], ?_⟩
  have h2 : bindList [logB (ρ := ρ) (E := E) a, logB b, logB c] s resolver
      = (s ++ [a, b, c], none) := by
    simpa using bindList_map_logB (ρ := ρ) (E := E) [a, b, c] s resolver
  simp [Groups.Bind, Groups.Register, NewGroups, h2]

/-- Claim C8: `Groups.Bind` returns the registry unchanged, so a second
`Bind` re-runs the whole sequence: over logging binders the first bind
appends all tags in order and the second bind, run on the registry and router
state the first returned, appends the same tags again. -/
theorem groups_bind_preserves_registry {σ ρ E τ : Type}
    (g : Groups σ ρ E) (router : σ) (bind : ρ)
    (ts s : List τ) (b : ρ) :
    ((Groups.Bind g router bind).1 = g) ∧
    ((Groups.Bind (⟨ts.map logB⟩ : Groups (List τ) ρ E) s b).2
      = (s ++ ts, none)) ∧
    ((Groups.Bind
        (Groups.Bind (⟨ts.map logB⟩ : Groups (List τ) ρ E) s b).1
        (Groups.Bind (⟨ts.map logB⟩ : Groups (List τ) ρ E) s b).2.1 b).2
      = ((s ++ ts) ++ ts, none)) := by
  refine ⟨rfl, ?_, ?_⟩
  · simp [Groups.Bind, bindList_map_logB]
  · simp [Groups.Bind, bindList_map_logB]

end Xmux
